import Mathlib

/-!
Shallow embedding of the blog-mocking repository (app.ts, effects.ts).

The program maps event-type names to one or more handler functions and
attaches them to the global window via window.addEventListener.  The
window's listener table is modelled as an explicit list of
(eventType, callback) entries in attachment order; addEventListener
follows the WHATWG DOM semantics (a registration identical to an
existing (type, callback, capture) entry is discarded; every call in
this program uses the default capture = false, so capture is omitted).
Handlers are identified by reference, so the handler type is an
arbitrary type with decidable equality.
-/

/-- DOM Event as this program observes it: only the type field matters
(bubbles only controls whether the event reaches the window, and every
raised event in the scenarios does). -/
structure Event where
  type : String
deriving DecidableEq, Repr

/-- Value shape of a tConfig entry in app.ts: tHandler | tHandler[],
a single handler or an array of handlers. -/
inductive HandlerSpec (H : Type) where
  | single (h : H)
  | many (hs : List H)
deriving DecidableEq, Repr

/-- lodash castArray: an array passes through unchanged, a non-array
value is wrapped in a one-element array. -/
def castArray {H : Type} : HandlerSpec H → List H
  | .single h => [h]
  | .many hs => hs

/-- Type tConfig from app.ts: a mapping from event-type name to
handler(s).  Object.entries enumerates it as a list of key/value pairs;
the list order is the enumeration order. -/
abbrev tConfig (H : Type) := List (String × HandlerSpec H)

/-- The window's event listener list: (eventType, callback) entries in
attachment order. -/
abbrev ListenerList (H : Type) := List (String × H)

/-- WHATWG EventTarget.addEventListener: append the (type, callback)
entry unless an identical entry is already in the listener list, in
which case the call is a no-op. -/
def addEventListener {H : Type} [DecidableEq H] (w : ListenerList H)
    (ty : String) (callback : H) : ListenerList H :=
  if (ty, callback) ∈ w then w else w ++ [(ty, callback)]

/-- Function init from app.ts: for each (event, handlers) entry of
Object.entries(config), for each handler of castArray(handlers), call
window.addEventListener(event, handler).  The window listener list is
threaded explicitly as state. -/
def init {H : Type} [DecidableEq H] (config : tConfig H)
    (window : ListenerList H) : ListenerList H :=
  config.foldl
    (fun w p => (castArray p.2).foldl (fun w' h => addEventListener w' p.1 h) w)
    window

/-- Trace of the addEventListener calls init makes, in order: one
(event, handler) argument pair per iteration of init's inner loop. -/
def initCalls {H : Type} (config : tConfig H) : List (String × H) :=
  config.foldl (fun calls p => calls ++ (castArray p.2).map (fun h => (p.1, h))) []

/-- Raising one event of type ty at the target: the host notifies, in
attachment order, exactly the listeners registered for ty; the result
is the sequence of handler invocations. -/
def dispatch {H : Type} (w : ListenerList H) (ty : String) : List H :=
  (w.filter (fun p => p.1 = ty)).map Prod.snd

/-- Handlers from effects.ts (the listing embedded in the README),
identified by name: aliceEffect and bobEffect. -/
inductive Effect where
  | aliceEffect
  | bobEffect
deriving DecidableEq, Repr

/-- Behavior of the effects.ts handlers: the console.debug lines one
invocation emits.  aliceEffect logs its fixed label; bobEffect's line
is hard-coded to name bar_event regardless of the event received. -/
def runEffect : Effect → Event → List String
  | .aliceEffect, _ => ["foo_event in aliceEffect()"]
  | .bobEffect, _ => ["bar_event in bobEffect()"]

/-- Constant LISTENER_CONFIG from app.ts: the built-in default
configuration. -/
def LISTENER_CONFIG : tConfig Effect :=
  [("foo_event", HandlerSpec.many [Effect.aliceEffect, Effect.bobEffect]),
   ("bar_event", HandlerSpec.single Effect.bobEffect)]

/-- Signature of init as exported by app.ts: the config parameter is
optional and defaults to LISTENER_CONFIG. -/
def initDefault (window : ListenerList Effect)
    (config : tConfig Effect := LISTENER_CONFIG) : ListenerList Effect :=
  init config window

/-- Console.debug output produced by raising one event: each listener
registered for the event's type runs in attachment order and its log
lines are concatenated. -/
def dispatchLogs (w : ListenerList Effect) (e : Event) : List String :=
  (dispatch w e.type).flatMap (fun h => runEffect h e)

/-- Modelled from the spec (section 4.1): normalize a Configuration
value to an ordered sequence of handlers — a single handler becomes a
one-element sequence; already-a-sequence values pass through
unchanged. -/
def normalizeSpec {H : Type} : HandlerSpec H → List H
  | .single h => [h]
  | .many hs => hs

/-- Modelled from the spec (section 4.1): the registrations the spec
prescribes — for each configuration entry, one (eventType, handler)
pair per handler of the normalized sequence. -/
def specRegistrations {H : Type} (config : tConfig H) : List (String × H) :=
  config.flatMap (fun p => (normalizeSpec p.2).map (fun h => (p.1, h)))

/-! Helper lemmas about the embedding. -/

theorem castArray_eq_normalizeSpec {H : Type} (s : HandlerSpec H) :
    castArray s = normalizeSpec s := by
  cases s <;> rfl

theorem foldl_append_acc {α β : Type} (f : β → List α) (l : List β) (a : List α) :
    l.foldl (fun acc p => acc ++ f p) a = a ++ l.flatMap f := by
  induction l generalizing a with
  | nil => simp
  | cons p ps ih => simp [ih, List.append_assoc]

theorem initCalls_eq {H : Type} (config : tConfig H) :
    initCalls config = config.flatMap (fun p => (castArray p.2).map (fun h => (p.1, h))) := by
  simp [initCalls, foldl_append_acc]

theorem addEventListener_mem {H : Type} [DecidableEq H] (w : ListenerList H)
    (ty : String) (c : H) (p : String × H) :
    p ∈ addEventListener w ty c ↔ p ∈ w ∨ p = (ty, c) := by
  by_cases hmem : (ty, c) ∈ w
  · simp only [addEventListener, if_pos hmem]
    constructor
    · exact Or.inl
    · rintro (hp | rfl)
      · exact hp
      · exact hmem
  · simp [addEventListener, if_neg hmem]

theorem attach_mem {H : Type} [DecidableEq H] (hs : List H) (w : ListenerList H)
    (ty : String) (p : String × H) :
    p ∈ hs.foldl (fun w' h => addEventListener w' ty h) w ↔
      p ∈ w ∨ ∃ h ∈ hs, p = (ty, h) := by
  induction hs generalizing w with
  | nil => simp
  | cons a as ih =>
    rw [List.foldl_cons, ih, addEventListener_mem]
    simp only [List.mem_cons]
    constructor
    · rintro ((hp | rfl) | ⟨h, hh, rfl⟩)
      · exact Or.inl hp
      · exact Or.inr ⟨a, Or.inl rfl, rfl⟩
      · exact Or.inr ⟨h, Or.inr hh, rfl⟩
    · rintro (hp | ⟨h, rfl | hh, rfl⟩)
      · exact Or.inl (Or.inl hp)
      · exact Or.inl (Or.inr rfl)
      · exact Or.inr ⟨h, hh, rfl⟩

theorem init_nil {H : Type} [DecidableEq H] (w : ListenerList H) :
    init [] w = w := rfl

theorem init_cons {H : Type} [DecidableEq H] (q : String × HandlerSpec H)
    (qs : tConfig H) (w : ListenerList H) :
    init (q :: qs) w =
      init qs ((castArray q.2).foldl (fun w' h => addEventListener w' q.1 h) w) := rfl

theorem init_mem {H : Type} [DecidableEq H] (config : tConfig H)
    (w : ListenerList H) (p : String × H) :
    p ∈ init config w ↔ p ∈ w ∨ p ∈ initCalls config := by
  rw [initCalls_eq]
  induction config generalizing w with
  | nil => simp [init]
  | cons q qs ih =>
    rw [init_cons, ih, attach_mem]
    simp only [List.flatMap_cons, List.mem_append, List.mem_map]
    constructor
    · rintro ((hp | ⟨h, hh, rfl⟩) | hcalls)
      · exact Or.inl hp
      · exact Or.inr (Or.inl ⟨h, hh, rfl⟩)
      · exact Or.inr (Or.inr hcalls)
    · rintro (hp | ⟨h, hh, rfl⟩ | hcalls)
      · exact Or.inl (Or.inl hp)
      · exact Or.inl (Or.inr ⟨h, hh, rfl⟩)
      · exact Or.inr hcalls

theorem addEventListener_nodup {H : Type} [DecidableEq H] {w : ListenerList H}
    (hw : w.Nodup) (ty : String) (c : H) : (addEventListener w ty c).Nodup := by
  by_cases hmem : (ty, c) ∈ w
  · simpa [addEventListener, if_pos hmem] using hw
  · simp only [addEventListener, if_neg hmem]
    simp [List.nodup_append, hw, hmem]

theorem attach_nodup {H : Type} [DecidableEq H] (hs : List H) {w : ListenerList H}
    (hw : w.Nodup) (ty : String) :
    (hs.foldl (fun w' h => addEventListener w' ty h) w).Nodup := by
  induction hs generalizing w with
  | nil => exact hw
  | cons a as ih => exact ih (addEventListener_nodup hw ty a)

theorem init_nodup {H : Type} [DecidableEq H] (config : tConfig H) {w : ListenerList H}
    (hw : w.Nodup) : (init config w).Nodup := by
  induction config generalizing w with
  | nil => exact hw
  | cons q qs ih => exact ih (attach_nodup _ hw _)

theorem addEventListener_extends {H : Type} [DecidableEq H] (w : ListenerList H)
    (ty : String) (c : H) : ∃ added, addEventListener w ty c = w ++ added := by
  by_cases hmem : (ty, c) ∈ w
  · exact ⟨[], by simp [addEventListener, hmem]⟩
  · exact ⟨[(ty, c)], by simp [addEventListener, hmem]⟩

theorem attach_extends {H : Type} [DecidableEq H] (hs : List H) (w : ListenerList H)
    (ty : String) :
    ∃ added, hs.foldl (fun w' h => addEventListener w' ty h) w = w ++ added := by
  induction hs generalizing w with
  | nil => exact ⟨[], by simp⟩
  | cons a as ih =>
    obtain ⟨r₁, hr₁⟩ := addEventListener_extends w ty a
    obtain ⟨r₂, hr₂⟩ := ih (addEventListener w ty a)
    exact ⟨r₁ ++ r₂, by rw [List.foldl_cons, hr₂, hr₁, List.append_assoc]⟩

theorem init_extends {H : Type} [DecidableEq H] (config : tConfig H)
    (w : ListenerList H) : ∃ added, init config w = w ++ added := by
  induction config generalizing w with
  | nil => exact ⟨[], by simp [init_nil]⟩
  | cons q qs ih =>
    obtain ⟨r₁, hr₁⟩ := attach_extends (castArray q.2) w q.1
    obtain ⟨r₂, hr₂⟩ := ih ((castArray q.2).foldl (fun w' h => addEventListener w' q.1 h) w)
    exact ⟨r₁ ++ r₂, by rw [init_cons, hr₂, hr₁, List.append_assoc]⟩

theorem addEventListener_of_mem {H : Type} [DecidableEq H] {w : ListenerList H}
    {ty : String} {c : H} (hmem : (ty, c) ∈ w) : addEventListener w ty c = w := by
  simp [addEventListener, hmem]

theorem attach_of_mem {H : Type} [DecidableEq H] (hs : List H) {w : ListenerList H}
    {ty : String} (hmem : ∀ h ∈ hs, (ty, h) ∈ w) :
    hs.foldl (fun w' h => addEventListener w' ty h) w = w := by
  induction hs with
  | nil => rfl
  | cons a as ih =>
    rw [List.foldl_cons, addEventListener_of_mem (hmem a (List.mem_cons_self a as))]
    exact ih (fun h hh => hmem h (List.mem_cons_of_mem a hh))

theorem init_of_calls_mem {H : Type} [DecidableEq H] {config : tConfig H}
    {w : ListenerList H} (hmem : ∀ p ∈ initCalls config, p ∈ w) :
    init config w = w := by
  rw [initCalls_eq] at hmem
  induction config with
  | nil => rfl
  | cons q qs ih =>
    rw [init_cons, attach_of_mem]
    · refine ih (fun p hp => hmem p ?_)
      simp only [List.flatMap_cons, List.mem_append]
      exact Or.inr hp
    · intro h hh
      refine hmem (q.1, h) ?_
      simp only [List.flatMap_cons, List.mem_append, List.mem_map]
      exact Or.inl ⟨h, hh, rfl⟩

theorem init_idem {H : Type} [DecidableEq H] (config : tConfig H)
    (w : ListenerList H) : init config (init config w) = init config w :=
  init_of_calls_mem (fun p hp => (init_mem config w p).mpr (Or.inr hp))

theorem count_dispatch {H : Type} [DecidableEq H] (w : ListenerList H)
    (ty : String) (h : H) : (dispatch w ty).count h = w.count (ty, h) := by
  induction w with
  | nil => rfl
  | cons p ps ih =>
    obtain ⟨a, b⟩ := p
    by_cases ha : a = ty
    · subst ha
      by_cases hb : b = h
      · subst hb
        simp [dispatch, List.filter_cons, List.count_cons, Prod.mk.injEq, ← ih, dispatch]
      · simp [dispatch, List.filter_cons, List.count_cons, Prod.mk.injEq, hb, ← ih, dispatch,
          Ne.symm hb]
    · simp [dispatch, List.filter_cons, List.count_cons, Prod.mk.injEq, ha, ← ih, dispatch]

theorem mem_dispatch {H : Type} (w : ListenerList H) (ty : String) (h : H) :
    h ∈ dispatch w ty ↔ (ty, h) ∈ w := by
  simp only [dispatch, List.mem_map, List.mem_filter, decide_eq_true_eq]
  constructor
  · rintro ⟨⟨a, b⟩, ⟨hpw, rfl⟩, rfl⟩
    exact hpw
  · intro hw
    exact ⟨(ty, h), ⟨hw, rfl⟩, rfl⟩

theorem mem_initCalls {H : Type} (config : tConfig H) (ty : String) (h : H) :
    (ty, h) ∈ initCalls config ↔
      ∃ q ∈ config, q.1 = ty ∧ h ∈ castArray q.2 := by
  rw [initCalls_eq]
  simp only [List.mem_flatMap, List.mem_map, Prod.mk.injEq]
  constructor
  · rintro ⟨q, hq, h', hh', rfl, rfl⟩
    exact ⟨q, hq, rfl, hh'⟩
  · rintro ⟨q, hq, rfl, hh⟩
    exact ⟨q, hq, h, hh, rfl, rfl⟩

theorem init_append {H : Type} [DecidableEq H] (xs ys : tConfig H) (w : ListenerList H) :
    init (xs ++ ys) w = init ys (init xs w) := by
  simp [init, List.foldl_append]

theorem initCalls_eq_spec {H : Type} (config : tConfig H) :
    initCalls config = specRegistrations config := by
  rw [initCalls_eq, specRegistrations]
  simp [castArray_eq_normalizeSpec]

theorem init_eq_replay {H : Type} [DecidableEq H] (config : tConfig H)
    (w : ListenerList H) :
    init config w = (initCalls config).foldl (fun w' q => addEventListener w' q.1 q.2) w := by
  rw [initCalls_eq]
  induction config generalizing w with
  | nil => rfl
  | cons q qs ih =>
    rw [init_cons, ih, List.flatMap_cons, List.foldl_append, List.foldl_map]


theorem count_eq_one_of_nodup_mem {H : Type} [DecidableEq H] {l : ListenerList H}
    {p : String × H} (hn : l.Nodup) (hp : p ∈ l) : l.count p = 1 := by
  induction l with
  | nil => cases hp
  | cons a as ih =>
    rw [List.count_cons]
    rcases List.mem_cons.mp hp with rfl | hmem
    · have h0 : as.count p = 0 := List.count_eq_zero.mpr (List.nodup_cons.mp hn).1
      simp [h0]
    · have hne : p ≠ a := fun e => (List.nodup_cons.mp hn).1 (e ▸ hmem)
      simp [ih (List.nodup_cons.mp hn).2 hmem, Ne.symm hne]

theorem count_le_one_of_nodup {H : Type} [DecidableEq H] {l : ListenerList H}
    (hn : l.Nodup) (p : String × H) : l.count p ≤ 1 := by
  by_cases hp : p ∈ l
  · exact le_of_eq (count_eq_one_of_nodup_mem hn hp)
  · simp [List.count_eq_zero.mpr hp]

/-! Claims. -/

/-- C1: init performs the specified attachment algorithm: it normalizes
each Configuration value to a sequence (single handler to one-element
sequence, sequence unchanged, empty sequence yielding no registration)
and makes exactly one addEventListener call per resulting
(eventType, handler) pair — its call trace is exactly the
spec-prescribed registration list, and the final listener state is the
replay of that trace. -/
theorem init_performs_spec_attachment {H : Type} [DecidableEq H] (config : tConfig H) :
    initCalls config = specRegistrations config ∧
    ∀ w : ListenerList H,
      init config w = (initCalls config).foldl (fun w' q => addEventListener w' q.1 q.2) w :=
  ⟨initCalls_eq_spec config, init_eq_replay config⟩

/-- C2 counterexample: the Configuration listing handler 0 twice under
key e produces a single registration, not two — window.addEventListener
discards a registration identical to an existing entry, so registration
is not purely additive without deduplication. -/
theorem init_no_dedup_counterexample :
    init [("e", HandlerSpec.many [0, 0])] ([] : ListenerList Nat) = [("e", 0)] ∧
    (init [("e", HandlerSpec.many [0, 0])] ([] : ListenerList Nat)).count ("e", 0) ≠ 2 := by
  decide

/-- C2 amended: after init, every (eventType, handler) pair listed in
the Configuration is registered, exactly once per distinct pair when the
target starts duplicate-free; no registration existing before the call
is removed or replaced (the prior table is extended in place), but a
registration identical to an existing (eventType, handler) entry is
skipped by the target rather than added a second time. -/
theorem init_registration_additive_up_to_dedup {H : Type} [DecidableEq H]
    (config : tConfig H) (w : ListenerList H) (t : String) (h : H)
    (hw : w.Nodup) :
    (∃ added, init config w = w ++ added) ∧
    (init config w).Nodup ∧
    ((t, h) ∈ init config w ↔ (t, h) ∈ w ∨ (t, h) ∈ initCalls config) ∧
    ((t, h) ∈ initCalls config → (init config w).count (t, h) = 1) :=
  ⟨init_extends config w, init_nodup config hw, init_mem config w (t, h),
    fun hc => count_eq_one_of_nodup_mem (init_nodup config hw)
      ((init_mem config w (t, h)).mpr (Or.inr hc))⟩

/-- C2 amended witness: the amended statement evaluated at the
Configuration mapping e to the two-element sequence [0, 0] against a
fresh target. -/
theorem init_registration_additive_up_to_dedup_witness :
    List.Nodup ([] : ListenerList Nat) ∧
    ((∃ added, init [("e", HandlerSpec.many [0, 0])] ([] : ListenerList Nat) = [] ++ added) ∧
     (init [("e", HandlerSpec.many [0, 0])] ([] : ListenerList Nat)).Nodup ∧
     (("e", 0) ∈ init [("e", HandlerSpec.many [0, 0])] ([] : ListenerList Nat) ↔
       ("e", 0) ∈ ([] : ListenerList Nat) ∨
       ("e", 0) ∈ initCalls [("e", HandlerSpec.many [0, 0])]) ∧
     (("e", 0) ∈ initCalls [("e", HandlerSpec.many [0, 0])] →
       (init [("e", HandlerSpec.many [0, 0])] ([] : ListenerList Nat)).count ("e", 0) = 1)) :=
  ⟨List.nodup_nil,
    init_registration_additive_up_to_dedup [("e", HandlerSpec.many [0, 0])] [] "e" 0
      List.nodup_nil⟩

/-- C3 counterexample: initializing twice with the Configuration mapping
e to handler 0 and raising one e event invokes the handler once, not
twice — the second init's registrations are identical to the first's
and window.addEventListener discards them. -/
theorem double_init_dispatch_counterexample :
    dispatch (init [("e", HandlerSpec.single 0)]
      (init [("e", HandlerSpec.single 0)] ([] : ListenerList Nat))) "e" = [0] ∧
    (dispatch (init [("e", HandlerSpec.single 0)]
      (init [("e", HandlerSpec.single 0)] ([] : ListenerList Nat))) "e").count 0 ≠ 2 := by
  decide

/-- C3 amended: calling init twice with the same Configuration against
the same (duplicate-free) dispatch target is idempotent — the second
call changes nothing — and raising one event whose type is a key of the
Configuration invokes each handler listed under that key exactly once,
because window.addEventListener ignores duplicate registrations. -/
theorem double_init_invokes_each_handler_once {H : Type} [DecidableEq H]
    (config : tConfig H) (w : ListenerList H) (t : String) (h : H)
    (hw : w.Nodup) (hlisted : (t, h) ∈ initCalls config) :
    init config (init config w) = init config w ∧
    (dispatch (init config (init config w)) t).count h = 1 := by
  refine ⟨init_idem config w, ?_⟩
  rw [init_idem config w, count_dispatch]
  exact count_eq_one_of_nodup_mem (init_nodup config hw)
    ((init_mem config w (t, h)).mpr (Or.inr hlisted))

/-- C3 amended witness: the amended statement evaluated at the
Configuration mapping e to handler 0 against a fresh target. -/
theorem double_init_invokes_each_handler_once_witness :
    List.Nodup ([] : ListenerList Nat) ∧
    ("e", 0) ∈ initCalls [("e", HandlerSpec.single 0)] ∧
    (init [("e", HandlerSpec.single 0)]
        (init [("e", HandlerSpec.single 0)] ([] : ListenerList Nat)) =
      init [("e", HandlerSpec.single 0)] ([] : ListenerList Nat) ∧
     (dispatch (init [("e", HandlerSpec.single 0)]
        (init [("e", HandlerSpec.single 0)] ([] : ListenerList Nat))) "e").count 0 = 1) :=
  ⟨List.nodup_nil, by decide,
    double_init_invokes_each_handler_once [("e", HandlerSpec.single 0)] [] "e" 0
      List.nodup_nil (by decide)⟩

/-- C4: concrete scenario 1 — for the Configuration zim: C, gir: [C, B],
dib: [C, B, A], gaz: [] over distinct handlers A, B, C, D, raising one
event each of types zim, dib, and gaz (and none of type gir) invokes A
exactly once (from dib), B exactly once (from dib), C exactly twice
(from zim and from dib), and never invokes D, which appears nowhere in
the Configuration. -/
theorem init_scenario_zim_gir_dib_gaz {H : Type} [DecidableEq H] (A B C D : H)
    (hAB : A ≠ B) (hAC : A ≠ C) (hBC : B ≠ C)
    (hDA : D ≠ A) (hDB : D ≠ B) (hDC : D ≠ C) :
    (dispatch (init [("zim", HandlerSpec.single C), ("gir", HandlerSpec.many [C, B]),
        ("dib", HandlerSpec.many [C, B, A]), ("gaz", HandlerSpec.many [])] []) "zim" ++
      dispatch (init [("zim", HandlerSpec.single C), ("gir", HandlerSpec.many [C, B]),
        ("dib", HandlerSpec.many [C, B, A]), ("gaz", HandlerSpec.many [])] []) "dib" ++
      dispatch (init [("zim", HandlerSpec.single C), ("gir", HandlerSpec.many [C, B]),
        ("dib", HandlerSpec.many [C, B, A]), ("gaz", HandlerSpec.many [])] []) "gaz").count A = 1 ∧
    (dispatch (init [("zim", HandlerSpec.single C), ("gir", HandlerSpec.many [C, B]),
        ("dib", HandlerSpec.many [C, B, A]), ("gaz", HandlerSpec.many [])] []) "zim" ++
      dispatch (init [("zim", HandlerSpec.single C), ("gir", HandlerSpec.many [C, B]),
        ("dib", HandlerSpec.many [C, B, A]), ("gaz", HandlerSpec.many [])] []) "dib" ++
      dispatch (init [("zim", HandlerSpec.single C), ("gir", HandlerSpec.many [C, B]),
        ("dib", HandlerSpec.many [C, B, A]), ("gaz", HandlerSpec.many [])] []) "gaz").count B = 1 ∧
    (dispatch (init [("zim", HandlerSpec.single C), ("gir", HandlerSpec.many [C, B]),
        ("dib", HandlerSpec.many [C, B, A]), ("gaz", HandlerSpec.many [])] []) "zim" ++
      dispatch (init [("zim", HandlerSpec.single C), ("gir", HandlerSpec.many [C, B]),
        ("dib", HandlerSpec.many [C, B, A]), ("gaz", HandlerSpec.many [])] []) "dib" ++
      dispatch (init [("zim", HandlerSpec.single C), ("gir", HandlerSpec.many [C, B]),
        ("dib", HandlerSpec.many [C, B, A]), ("gaz", HandlerSpec.many [])] []) "gaz").count C = 2 ∧
    (dispatch (init [("zim", HandlerSpec.single C), ("gir", HandlerSpec.many [C, B]),
        ("dib", HandlerSpec.many [C, B, A]), ("gaz", HandlerSpec.many [])] []) "zim" ++
      dispatch (init [("zim", HandlerSpec.single C), ("gir", HandlerSpec.many [C, B]),
        ("dib", HandlerSpec.many [C, B, A]), ("gaz", HandlerSpec.many [])] []) "dib" ++
      dispatch (init [("zim", HandlerSpec.single C), ("gir", HandlerSpec.many [C, B]),
        ("dib", HandlerSpec.many [C, B, A]), ("gaz", HandlerSpec.many [])] []) "gaz").count D = 0 := by
  have hw : init [("zim", HandlerSpec.single C), ("gir", HandlerSpec.many [C, B]),
      ("dib", HandlerSpec.many [C, B, A]), ("gaz", HandlerSpec.many [])] ([] : ListenerList H) =
      [("zim", C), ("gir", C), ("gir", B), ("dib", C), ("dib", B), ("dib", A)] := by
    simp [init, castArray, addEventListener, List.mem_cons, List.mem_singleton,
      Prod.mk.injEq, hAB, hAC, hBC]
  rw [hw]
  refine ⟨?_, ?_, ?_, ?_⟩ <;>
    simp [dispatch, List.count_cons, List.filter_cons, hAB, hAC, hBC, hDA, hDB, hDC,
      Ne.symm hAB, Ne.symm hAC, Ne.symm hBC, Ne.symm hDA, Ne.symm hDB, Ne.symm hDC]

/-- C4 witness: the scenario evaluated at the concrete distinct handlers
A = 0, B = 1, C = 2, D = 3. -/
theorem init_scenario_zim_gir_dib_gaz_witness :
    ((0 : Nat) ≠ 1 ∧ (0 : Nat) ≠ 2 ∧ (1 : Nat) ≠ 2 ∧
     (3 : Nat) ≠ 0 ∧ (3 : Nat) ≠ 1 ∧ (3 : Nat) ≠ 2) ∧
    ((dispatch (init [("zim", HandlerSpec.single 2), ("gir", HandlerSpec.many [2, 1]),
        ("dib", HandlerSpec.many [2, 1, 0]), ("gaz", HandlerSpec.many [])] []) "zim" ++
      dispatch (init [("zim", HandlerSpec.single 2), ("gir", HandlerSpec.many [2, 1]),
        ("dib", HandlerSpec.many [2, 1, 0]), ("gaz", HandlerSpec.many [])] []) "dib" ++
      dispatch (init [("zim", HandlerSpec.single 2), ("gir", HandlerSpec.many [2, 1]),
        ("dib", HandlerSpec.many [2, 1, 0]), ("gaz", HandlerSpec.many [])] []) "gaz").count 0 = 1 ∧
     (dispatch (init [("zim", HandlerSpec.single 2), ("gir", HandlerSpec.many [2, 1]),
        ("dib", HandlerSpec.many [2, 1, 0]), ("gaz", HandlerSpec.many [])] []) "zim" ++
      dispatch (init [("zim", HandlerSpec.single 2), ("gir", HandlerSpec.many [2, 1]),
        ("dib", HandlerSpec.many [2, 1, 0]), ("gaz", HandlerSpec.many [])] []) "dib" ++
      dispatch (init [("zim", HandlerSpec.single 2), ("gir", HandlerSpec.many [2, 1]),
        ("dib", HandlerSpec.many [2, 1, 0]), ("gaz", HandlerSpec.many [])] []) "gaz").count 1 = 1 ∧
     (dispatch (init [("zim", HandlerSpec.single 2), ("gir", HandlerSpec.many [2, 1]),
        ("dib", HandlerSpec.many [2, 1, 0]), ("gaz", HandlerSpec.many [])] []) "zim" ++
      dispatch (init [("zim", HandlerSpec.single 2), ("gir", HandlerSpec.many [2, 1]),
        ("dib", HandlerSpec.many [2, 1, 0]), ("gaz", HandlerSpec.many [])] []) "dib" ++
      dispatch (init [("zim", HandlerSpec.single 2), ("gir", HandlerSpec.many [2, 1]),
        ("dib", HandlerSpec.many [2, 1, 0]), ("gaz", HandlerSpec.many [])] []) "gaz").count 2 = 2 ∧
     (dispatch (init [("zim", HandlerSpec.single 2), ("gir", HandlerSpec.many [2, 1]),
        ("dib", HandlerSpec.many [2, 1, 0]), ("gaz", HandlerSpec.many [])] []) "zim" ++
      dispatch (init [("zim", HandlerSpec.single 2), ("gir", HandlerSpec.many [2, 1]),
        ("dib", HandlerSpec.many [2, 1, 0]), ("gaz", HandlerSpec.many [])] []) "dib" ++
      dispatch (init [("zim", HandlerSpec.single 2), ("gir", HandlerSpec.many [2, 1]),
        ("dib", HandlerSpec.many [2, 1, 0]), ("gaz", HandlerSpec.many [])] []) "gaz").count 3 = 0) :=
  ⟨by decide,
    init_scenario_zim_gir_dib_gaz 0 1 2 3 (by decide) (by decide) (by decide)
      (by decide) (by decide) (by decide)⟩

/-- C5: with the Configuration mapping foo_event to
[aliceEffect, bobEffect], raising one foo_event produces exactly two log
emissions, the literal strings foo_event in aliceEffect() and
bar_event in bobEffect(); bobEffect's logged text is hard-coded to name
bar_event and is independent of the event that invoked it. -/
theorem foo_event_two_log_emissions :
    dispatchLogs
      (init [("foo_event", HandlerSpec.many [Effect.aliceEffect, Effect.bobEffect])] [])
      ⟨"foo_event"⟩ = ["foo_event in aliceEffect()", "bar_event in bobEffect()"] ∧
    ∀ e : Event, runEffect Effect.bobEffect e = ["bar_event in bobEffect()"] :=
  ⟨rfl, fun _ => rfl⟩

/-- C6: a Configuration entry holding a single handler and one holding
the one-element sequence of the same handler produce identical
registration behavior under init, in any surrounding configuration and
against any initial target. -/
theorem single_handler_singleton_equivalent {H : Type} [DecidableEq H]
    (pre post : tConfig H) (t : String) (h : H) (w : ListenerList H) :
    init (pre ++ (t, HandlerSpec.single h) :: post) w =
      init (pre ++ (t, HandlerSpec.many [h]) :: post) w := by
  rw [init_append, init_append]
  rfl

/-- C7: raising an event whose type is not a key of the Configuration,
after init against a fresh target, invokes no handler. -/
theorem absent_event_type_invokes_nothing {H : Type} [DecidableEq H]
    (config : tConfig H) (t : String) (habs : t ∉ config.map Prod.fst) :
    dispatch (init config []) t = [] := by
  have hfil : (init config []).filter (fun p => p.1 = t) = [] := by
    rw [List.filter_eq_nil_iff]
    rintro ⟨a, b⟩ hp
    simp only [decide_eq_true_eq]
    intro hat
    rcases (init_mem config [] (a, b)).mp hp with h0 | hcalls
    · cases h0
    · rcases (mem_initCalls config a b).mp hcalls with ⟨q, hq, hq1, _⟩
      subst hat
      exact habs (hq1 ▸ List.mem_map_of_mem Prod.fst hq)
  unfold dispatch
  rw [hfil]
  rfl

/-- C7 witness: the statement evaluated at the Configuration mapping a
to handler 0 and the absent event type b. -/
theorem absent_event_type_invokes_nothing_witness :
    "b" ∉ List.map Prod.fst [("a", HandlerSpec.single (0 : Nat))] ∧
    dispatch (init [("a", HandlerSpec.single (0 : Nat))] []) "b" = [] :=
  ⟨by decide, absent_event_type_invokes_nothing [("a", HandlerSpec.single 0)] "b" (by decide)⟩

/-- C8: the system's single entry point is init with an optional
configuration: with no configuration it uses the built-in default
LISTENER_CONFIG, which maps foo_event to [aliceEffect, bobEffect] and
bar_event to bobEffect, and with an explicit configuration it uses that
configuration instead. -/
theorem initDefault_single_entry_point :
    (∀ w : ListenerList Effect, initDefault w = init LISTENER_CONFIG w) ∧
    (∀ (w : ListenerList Effect) (c : tConfig Effect), initDefault w c = init c w) ∧
    LISTENER_CONFIG =
      [("foo_event", HandlerSpec.many [Effect.aliceEffect, Effect.bobEffect]),
       ("bar_event", HandlerSpec.single Effect.bobEffect)] :=
  ⟨fun _ => rfl, fun _ _ => rfl, rfl⟩

/-- C9: starting from a duplicate-free target, the listener table never
holds duplicate (eventType, handler) entries after init — including
after a second init with an overlapping configuration — so one matching
event invokes each distinct handler at most once. -/
theorem no_duplicate_listener_entries {H : Type} [DecidableEq H]
    (config config' : tConfig H) (w : ListenerList H) (t : String) (h : H)
    (hw : w.Nodup) :
    (init config w).Nodup ∧
    (init config w).count (t, h) ≤ 1 ∧
    (dispatch (init config w) t).count h ≤ 1 ∧
    (dispatch (init config' (init config w)) t).count h ≤ 1 := by
  have h1 := init_nodup config hw
  have h2 := init_nodup config' h1
  refine ⟨h1, count_le_one_of_nodup h1 (t, h), ?_, ?_⟩
  · rw [count_dispatch]
    exact count_le_one_of_nodup h1 (t, h)
  · rw [count_dispatch]
    exact count_le_one_of_nodup h2 (t, h)

/-- C9 witness: the statement evaluated at a configuration listing
handler 0 twice under key e, re-initialized with an overlapping
configuration, against a fresh target. -/
theorem no_duplicate_listener_entries_witness :
    List.Nodup ([] : ListenerList Nat) ∧
    ((init [("e", HandlerSpec.many [0, 0])] ([] : ListenerList Nat)).Nodup ∧
     (init [("e", HandlerSpec.many [0, 0])] ([] : ListenerList Nat)).count ("e", 0) ≤ 1 ∧
     (dispatch (init [("e", HandlerSpec.many [0, 0])] ([] : ListenerList Nat)) "e").count 0 ≤ 1 ∧
     (dispatch (init [("e", HandlerSpec.single 0)]
       (init [("e", HandlerSpec.many [0, 0])] ([] : ListenerList Nat))) "e").count 0 ≤ 1) :=
  ⟨List.nodup_nil,
    no_duplicate_listener_entries [("e", HandlerSpec.many [0, 0])]
      [("e", HandlerSpec.single 0)] [] "e" 0 List.nodup_nil⟩

/-- C10: init's only state change is the registrations added to the
dispatch target: the prior listener table is extended in place (nothing
is removed or replaced), and every entry of the result either was
already present or is one of the (eventType, handler) pairs drawn from
the Configuration; the Configuration itself, being only read, is
unchanged. -/
theorem init_frame_condition {H : Type} [DecidableEq H] (config : tConfig H)
    (w : ListenerList H) (p : String × H) (hp : p ∈ init config w) :
    (∃ added, init config w = w ++ added) ∧ (p ∈ w ∨ p ∈ initCalls config) :=
  ⟨init_extends config w, (init_mem config w p).mp hp⟩

/-- C10 witness: the frame condition evaluated at the Configuration
mapping e to handler 0, a fresh target, and the registered entry. -/
theorem init_frame_condition_witness :
    ("e", 0) ∈ init [("e", HandlerSpec.single 0)] ([] : ListenerList Nat) ∧
    ((∃ added, init [("e", HandlerSpec.single 0)] ([] : ListenerList Nat) = [] ++ added) ∧
     (("e", 0) ∈ ([] : ListenerList Nat) ∨
      ("e", 0) ∈ initCalls [("e", HandlerSpec.single 0)])) :=
  ⟨by decide, init_frame_condition [("e", HandlerSpec.single 0)] [] ("e", 0) (by decide)⟩
